import Mathlib

/-!
Verification development for the VC-blog content-aggregation pipeline
(`src/scraper.py`, `src/aggregator.py`, `src/models.py`, `src/config.py`).

The Python code is shallowly embedded: pure functions become Lean functions,
the retry loop becomes a structurally recursive function that also records the
attempt count and the backoff sleeps, the thread-pool fan-out of
`scrape_all_sources` becomes a function of the per-source outcomes listed in
completion order, and `datetime.now()` becomes an explicit `now` argument.
Python `datetime` values are embedded as naive field tuples plus an optional
timezone tag.  Only the comparison of naive datetimes — lexicographic on the
fields — is modelled: `filter_by_date` strips timezones before every
comparison it makes, while the sort inside `aggregate_posts` compares the
stored datetimes directly, where CPython compares two aware values by their
UTC-adjusted instant and raises `TypeError` on a naive/aware mix.  That aware
behaviour involves calendar arithmetic and an error path this model does not
capture, so the theorems that rest on the sort are stated under an explicit
all-naive hypothesis, the domain on which the embedding is exact.
-/

/-- Embedding of a Python `datetime`: the six naive fields plus an optional
timezone tag (`none` = naive).  Comparison of naive datetimes is lexicographic
on the fields; aware comparison (by UTC-adjusted instant, `TypeError` on a
naive/aware mix) is outside this model — see the file header. -/
structure DateTime where
  year : Nat
  month : Nat
  day : Nat
  hour : Nat
  minute : Nat
  second : Nat
  tz : Option Int
deriving DecidableEq, Repr

/-- Embedding of `src/models.py` `BlogPost`. -/
structure BlogPost where
  title : String
  date : DateTime
  content : String
  source : String
  url : String
  excerpt : Option String
deriving DecidableEq, Repr

/-- Lexicographic strict order on lists of naturals; this is how Python
compares the field tuples of two naive `datetime` values. -/
def natListLt (xs ys : List Nat) : Bool :=
  match xs, ys with
  | [], [] => false
  | [], _ :: _ => true
  | _ :: _, [] => false
  | a :: as, b :: bs =>
    if a < b then true
    else if b < a then false
    else natListLt as bs

theorem natListLt_self (xs : List Nat) : natListLt xs xs = false := by
  induction xs with
  | nil => rfl
  | cons a as ih => simp [natListLt, ih]

theorem natListLt_trans (xs ys zs : List Nat)
    (h1 : natListLt xs ys = true) (h2 : natListLt ys zs = true) :
    natListLt xs zs = true := by
  induction xs generalizing ys zs with
  | nil =>
    cases ys with
    | nil => simpa [natListLt] using h1
    | cons b bs =>
      cases zs with
      | nil => simpa [natListLt] using h2
      | cons c cs => simp [natListLt]
  | cons a as ih =>
    cases ys with
    | nil => simpa [natListLt] using h1
    | cons b bs =>
      cases zs with
      | nil => simpa [natListLt] using h2
      | cons c cs =>
        simp only [natListLt] at h1 h2 ⊢
        split_ifs at h1 h2 ⊢ <;>
          first | rfl | omega | exact ih bs cs h1 h2 | simp_all

/-- The naive field tuple of a datetime (timezone tag excluded): this is what
Python's naive `datetime` comparison operates on. -/
def dtFields (d : DateTime) : List Nat :=
  [d.year, d.month, d.day, d.hour, d.minute, d.second]

/-- Embedding of `<` on naive Python datetimes. -/
def dtLt (a b : DateTime) : Bool := natListLt (dtFields a) (dtFields b)

/-- Embedding of `<=` on naive Python datetimes. -/
def dtLe (a b : DateTime) : Bool := !(natListLt (dtFields b) (dtFields a))

theorem dtLe_refl (a : DateTime) : dtLe a a = true := by
  simp [dtLe, natListLt_self]

/-! ### Scraper: `src/scraper.py` -/

namespace Config

/-- Embedding of `Config.MAX_RETRIES` from `src/config.py`. -/
def MAX_RETRIES : Nat := 3

/-- Embedding of `Config.RETRY_DELAY` (seconds) from `src/config.py`. -/
def RETRY_DELAY : Nat := 2

end Config

/-- Embedding of `ScraperError` as raised by `scrape_source` after exhausting
its retries: the message wraps the source name, the attempt count and the last
underlying error (`f"Failed to scrape {name} after {n} attempts: {e}"`). -/
structure SourceScrapeError where
  source : String
  attempts : Nat
  cause : String
deriving DecidableEq, Repr

/-- Observable outcome of one `scrape_source` call: the returned value or the
raised error, the number of attempts made, and the list of backoff sleep
durations (seconds), in the order they were performed. -/
structure RunTrace where
  result : Except SourceScrapeError (List BlogPost)
  attempts : Nat
  sleeps : List Nat

/-- Embedding of the `for attempt in range(max_retries)` loop of
`scrape_source`.  The fetch-parse-filter unit of one attempt is abstracted as
`unit : Nat → Except String (List BlogPost)` (attempt index to outcome, since
the network may answer differently on each attempt).  On an exception with
attempts remaining the loop sleeps `Config.RETRY_DELAY * (attempt + 1)` and
retries; on the last attempt it raises the wrapping error. -/
def scrapeLoop (name : String) (unit : Nat → Except String (List BlogPost))
    (maxRetries : Nat) (attempt : Nat) : RunTrace :=
  if h : attempt < maxRetries then
    match unit attempt with
    | Except.ok posts => ⟨Except.ok posts, 1, []⟩
    | Except.error e =>
      if attempt < maxRetries - 1 then
        let rest := scrapeLoop name unit maxRetries (attempt + 1)
        ⟨rest.result, rest.attempts + 1, Config.RETRY_DELAY * (attempt + 1) :: rest.sleeps⟩
      else
        ⟨Except.error ⟨name, maxRetries, e⟩, 1, []⟩
  else ⟨Except.ok [], 0, []⟩
termination_by maxRetries - attempt
decreasing_by omega

/-- Embedding of `max_retries = max_retries or Config.MAX_RETRIES`: Python's
`or` replaces both `None` and the falsy `0` by the default. -/
def effectiveRetries : Option Nat → Nat
  | none => Config.MAX_RETRIES
  | some n => if n = 0 then Config.MAX_RETRIES else n

/-- Embedding of `scrape_source` from `src/scraper.py` (the per-source
retrier), returning the full observable trace of the call. -/
def scrape_source (name : String) (unit : Nat → Except String (List BlogPost))
    (max_retries : Option Nat) : RunTrace :=
  scrapeLoop name unit (effectiveRetries max_retries) 0

/-- Abstraction of one `article` element of `parse_blog_html` after the CSS
selector queries have run: the text of the matched title element (if any), the
matched date element's `datetime` attribute and visible text (if the element
matched), the text of the matched content element (if any), and the `href` of
the first link (if any). -/
structure Article where
  titleElem : Option String
  dateElem : Option (Option String × String)
  contentElem : Option String
  linkHref : Option String
deriving DecidableEq, Repr

/-- Embedding of `date_elem.get("datetime") or date_elem.get_text(strip=True)`:
a missing or empty (falsy) attribute falls back to the visible text. -/
def dateStrOf (attr : Option String) (text : String) : String :=
  match attr with
  | some s => if s = "" then text else s
  | none => text

/-- Embedding of the per-element body of the `for article in articles` loop of
`parse_blog_html`.  The permissive external date parser (`dateutil`) and URL
resolver (`urljoin`) are passed in as functions.  `none` means the element is
skipped. -/
def processArticle (parseDate : String → Option DateTime)
    (joinUrl : String → String → String) (name baseUrl : String)
    (a : Article) : Option BlogPost :=
  match a.titleElem with
  | none => none
  | some title =>
    match a.dateElem with
    | none => none
    | some (attr, text) =>
      match parseDate (dateStrOf attr text) with
      | none => none
      | some post_date =>
        let content := a.contentElem.getD ""
        let url := match a.linkHref with
          | some href => joinUrl baseUrl href
          | none => ""
        some ⟨title, post_date, content, name, url, none⟩

/-- Embedding of `parse_blog_html` from `src/scraper.py`: process the matched
article elements in document order, skipping the ones the per-element body
drops. -/
def parse_blog_html (parseDate : String → Option DateTime)
    (joinUrl : String → String → String) (name baseUrl : String)
    (articles : List Article) : List BlogPost :=
  articles.filterMap (processArticle parseDate joinUrl name baseUrl)

/-- Embedding of `d.replace(tzinfo=None) if d.tzinfo else d`. -/
def stripTz (d : DateTime) : DateTime :=
  match d.tz with
  | some _ => ⟨d.year, d.month, d.day, d.hour, d.minute, d.second, none⟩
  | none => d

/-- Attach a timezone tag to a datetime (used to state that `filter_by_date`
ignores timezone information). -/
def tzSet (z : Option Int) (d : DateTime) : DateTime :=
  ⟨d.year, d.month, d.day, d.hour, d.minute, d.second, z⟩

/-- Embedding of `filter_by_date` from `src/scraper.py`: keep the posts whose
timezone-stripped timestamp lies in the inclusive stripped range. -/
def filter_by_date (posts : List BlogPost) (start_date end_date : DateTime) :
    List BlogPost :=
  posts.filter fun post =>
    dtLe (stripTz start_date) (stripTz post.date)
      && dtLe (stripTz post.date) (stripTz end_date)

/-! ### Aggregator: `src/aggregator.py` -/

/-- Length of a longest common subsequence of two character lists. -/
def lcsLen (xs ys : List Char) : Nat :=
  match xs, ys with
  | [], _ => 0
  | _, [] => 0
  | a :: as, b :: bs =>
    if a = b then lcsLen as bs + 1
    else max (lcsLen (a :: as) bs) (lcsLen as (b :: bs))
termination_by xs.length + ys.length

/-- Modelled from the spec: the similarity ratio of `difflib.SequenceMatcher`
(Python stdlib, outside this repository).  The spec fixes only that it is "a
normalized lexical alignment ratio in [0,1] between two strings (1.0 =
identical)" whose "exact algorithm choice is an implementation detail"; it is
realised here, in `SequenceMatcher`'s `2*M/T` shape, as the
longest-common-subsequence alignment ratio, with the ratio of two empty
strings being `1` as in `difflib`. -/
def ratioOf (a b : String) : ℚ :=
  if a.length + b.length = 0 then 1
  else (2 * (lcsLen a.data b.data : ℚ)) / ((a.length : ℚ) + (b.length : ℚ))

/-- Embedding of `_is_similar_content` from `src/aggregator.py`: title
similarity strictly above the threshold, or — when both posts have non-empty
content — similarity of the first 500 characters of the contents strictly
above the threshold. -/
def is_similar_content (post1 post2 : BlogPost) (threshold : ℚ) : Bool :=
  decide (threshold < ratioOf post1.title post2.title)
    || (decide (post1.content ≠ "") && decide (post2.content ≠ "")
        && decide (threshold < ratioOf (post1.content.take 500) (post2.content.take 500)))

/-- Embedding of the `for post in posts` loop of `deduplicate_content`, with
the accumulating kept list (`unique_posts`) and seen-URL collection
(`seen_urls`, a list used only through membership). -/
def dedupLoop (threshold : ℚ) :
    List BlogPost → List BlogPost → List String → List BlogPost
  | [], kept, _ => kept
  | post :: rest, kept, seen =>
    if (post.url != "") && seen.contains post.url then
      dedupLoop threshold rest kept seen
    else if kept.any (fun q => is_similar_content post q threshold) then
      dedupLoop threshold rest kept seen
    else
      dedupLoop threshold rest (kept ++ [post])
        (if post.url = "" then seen else post.url :: seen)

/-- Embedding of `deduplicate_content` from `src/aggregator.py`. -/
def deduplicate_content (posts : List BlogPost) (similarity_threshold : ℚ) :
    List BlogPost :=
  match posts with
  | [] => []
  | _ :: _ => dedupLoop similarity_threshold posts [] []

/-- The posts accumulated by `scrape_all_sources` over the per-source futures
in completion order (`all_posts.extend(posts)` for each success). -/
def successPosts (results : List (String × Except String (List BlogPost))) :
    List BlogPost :=
  results.foldl
    (fun acc r =>
      match r.2 with
      | Except.ok posts => acc ++ posts
      | Except.error _ => acc)
    []

/-- The `(source name, error)` pairs accumulated by `scrape_all_sources`, in
completion order. -/
def failurePairs (results : List (String × Except String (List BlogPost))) :
    List (String × String) :=
  results.filterMap fun r =>
    match r.2 with
    | Except.error e => some (r.1, e)
    | Except.ok _ => none

/-- Embedding of `scrape_all_sources` from `src/aggregator.py` as a function
of the per-source outcomes in completion order (one entry per submitted
source: the source's name and either its scraped posts or the message of the
exception its future raised).  Raises the aggregate error (carrying every
`(source name, error)` pair) exactly when `errors and not all_posts`. -/
def scrape_all_sources (results : List (String × Except String (List BlogPost))) :
    Except (List (String × String)) (List BlogPost) :=
  let all_posts := successPosts results
  let errors := failurePairs results
  if !errors.isEmpty && all_posts.isEmpty then Except.error errors
  else Except.ok all_posts

/-- Insert a post into a list already sorted by date descending, after every
element whose date is strictly greater: together with `sortByDateDesc` this is
the stable descending sort performed by
`sorted(posts, key=lambda p: p.date, reverse=True)` on posts whose dates are
all naive (the only case `dtLt` covers — see the file header). -/
def insertByDateDesc (p : BlogPost) : List BlogPost → List BlogPost
  | [] => [p]
  | q :: rest =>
    if dtLt p.date q.date then q :: insertByDateDesc p rest
    else p :: q :: rest

/-- Embedding of `sorted(posts, key=lambda p: p.date, reverse=True)` for
posts whose dates are all naive: a stable sort by published date, newest
first.  `aggregate_posts` does not strip timezones at this call site, and on
timezone-aware dates CPython's key comparison (UTC-adjusted instant,
`TypeError` on a naive/aware mix) differs from `dtLt`'s naive-field order, so
claims about the sorted output are stated under an all-naive hypothesis. -/
def sortByDateDesc : List BlogPost → List BlogPost
  | [] => []
  | p :: rest => insertByDateDesc p (sortByDateDesc rest)

/-- One step of the `by_source` grouping dict of `aggregate_posts`: append the
post to its source's entry, creating the entry at the end on first sight
(Python dicts preserve insertion order). -/
def addToGroup (groups : List (String × List BlogPost)) (p : BlogPost) :
    List (String × List BlogPost) :=
  match groups with
  | [] => [(p.source, [p])]
  | (s, l) :: rest =>
    if s = p.source then (s, l ++ [p]) :: rest
    else (s, l) :: addToGroup rest p

/-- Embedding of the `by_source` grouping dict of `aggregate_posts`, as an
insertion-ordered association list. -/
def groupBySource (posts : List BlogPost) : List (String × List BlogPost) :=
  posts.foldl addToGroup []

/-- Zero-pad a natural to two digits (`strftime` `%m`, `%d`, `%H`, `%M`). -/
def pad2 (n : Nat) : String :=
  if n < 10 then "0" ++ toString n else toString n

/-- Zero-pad a year to four digits (`strftime` `%Y`). -/
def pad4 (n : Nat) : String :=
  if n < 10 then "000" ++ toString n
  else if n < 100 then "00" ++ toString n
  else if n < 1000 then "0" ++ toString n
  else toString n

/-- Embedding of `strftime('%Y-%m-%d')`. -/
def fmtDate (d : DateTime) : String :=
  pad4 d.year ++ "-" ++ pad2 d.month ++ "-" ++ pad2 d.day

/-- Embedding of `strftime('%Y-%m-%d %H:%M')`. -/
def fmtMinute (d : DateTime) : String :=
  fmtDate d ++ " " ++ pad2 d.hour ++ ":" ++ pad2 d.minute

/-- Fallback post used to embed the (unreachable on the non-empty path)
defaults for `sorted_posts[0]` / `sorted_posts[-1]`. -/
def dfltPost : BlogPost := ⟨"", ⟨0, 0, 0, 0, 0, 0, none⟩, "", "", "", none⟩

/-- The lines `aggregate_posts` appends for one post. -/
def postLines (post : BlogPost) : List String :=
  ["\n### " ++ post.title, "**Date:** " ++ fmtDate post.date]
    ++ (if post.url = "" then [] else ["**URL:** " ++ post.url])
    ++ ["\n" ++ post.content ++ "\n", "---\n"]

/-- The lines `aggregate_posts` appends for one source group. -/
def groupSection (g : String × List BlogPost) : List String :=
  ("\n## " ++ g.1 ++ " (" ++ toString g.2.length ++ " posts)\n")
    :: g.2.flatMap postLines

/-- The full `lines` list built by `aggregate_posts` on a non-empty input:
title block, generated-at / total-count / date-range metadata, separator, then
one section per source group of the sorted posts. -/
def aggregateLines (posts : List BlogPost) (now : DateTime) : List String :=
  let sorted_posts := sortByDateDesc posts
  ["# VC Blog Posts Collection\n",
   "**Generated:** " ++ fmtMinute now ++ "\n",
   "**Total Posts:** " ++ toString sorted_posts.length ++ "\n",
   "**Date Range:** " ++ fmtDate (sorted_posts.getLast?.getD dfltPost).date
     ++ " to " ++ fmtDate (sorted_posts.head?.getD dfltPost).date ++ "\n",
   "\n---\n"]
    ++ (groupBySource sorted_posts).flatMap groupSection

/-- Embedding of `aggregate_posts` from `src/aggregator.py`, with the
`datetime.now()` read made an explicit `now` argument. -/
def aggregate_posts (posts : List BlogPost) (now : DateTime) : String :=
  match posts with
  | [] => ""
  | _ :: _ => String.intercalate "\n" (aggregateLines posts now)

/-! ### Per-source retrier: claims C5 and C10 -/

theorem scrapeLoop_attempts_pos (name : String)
    (unit : Nat → Except String (List BlogPost)) (m a : Nat) (h : a < m) :
    1 ≤ (scrapeLoop name unit m a).attempts := by
  rw [scrapeLoop]
  rw [dif_pos h]
  cases unit a with
  | ok posts => exact Nat.le_refl 1
  | error e =>
    by_cases h2 : a < m - 1
    · simp only [if_pos h2]
      exact Nat.le_add_left 1 _
    · simp only [if_neg h2]
      exact Nat.le_refl 1

theorem scrapeLoop_all_fail (name : String)
    (unit : Nat → Except String (List BlogPost)) (err : Nat → String)
    (hf : ∀ k, unit k = Except.error (err k)) :
    ∀ (d m a : Nat), m - a = d + 1 → a < m →
      scrapeLoop name unit m a =
        ⟨Except.error ⟨name, m, err (m - 1)⟩, m - a,
         (List.range' (a + 1) (m - 1 - a)).map (fun k => Config.RETRY_DELAY * k)⟩ := by
  intro d
  induction d with
  | zero =>
    intro m a hd h
    rw [scrapeLoop, dif_pos h, hf a]
    have h2 : ¬ a < m - 1 := by omega
    simp only [if_neg h2]
    have e1 : m - a = 1 := by omega
    have e2 : m - 1 - a = 0 := by omega
    have e3 : err a = err (m - 1) := by rw [show a = m - 1 from by omega]
    rw [e1, e2, e3]
    rfl
  | succ d ih =>
    intro m a hd h
    have h2 : a < m - 1 := by omega
    rw [scrapeLoop, dif_pos h, hf a]
    simp only [if_pos h2]
    rw [ih m (a + 1) (by omega) (by omega)]
    have hr : m - 1 - a = (m - 1 - (a + 1)) + 1 := by omega
    rw [hr, List.range'_succ]
    simp only [List.map_cons]
    have hattempts : m - (a + 1) + 1 = m - a := by omega
    rw [hattempts]

/-- C5: if the fetch-extract-filter unit fails on every attempt then
`scrape_source` with `max_attempts = n` makes exactly `n` attempts, sleeps
`RETRY_DELAY * k` before the `k`-th retry for `k = 1 .. n-1`, and fails with a
`SourceScrapeError` wrapping the source name, the attempt count and the last
underlying error; its result carries no posts. -/
theorem c5_retrier_exhaustion (name : String)
    (unit : Nat → Except String (List BlogPost)) (err : Nat → String) (n : Nat)
    (hn : 0 < n) (hf : ∀ k, unit k = Except.error (err k)) :
    scrape_source name unit (some n) =
      ⟨Except.error ⟨name, n, err (n - 1)⟩, n,
       (List.range' 1 (n - 1)).map (fun k => Config.RETRY_DELAY * k)⟩ := by
  have hn0 : ¬ n = 0 := by omega
  show scrapeLoop name unit (effectiveRetries (some n)) 0 = _
  rw [show effectiveRetries (some n) = n by simp [effectiveRetries, hn0]]
  have h := scrapeLoop_all_fail name unit err hf (n - 1) n 0 (by omega) hn
  simpa using h

/-- Witness for C5 at the spec's example: three consecutive failures with
`max_attempts = 3` give exactly 3 attempts, backoff sleeps of 2 and 4
seconds, and the wrapping error. -/
theorem c5_witness :
    scrape_source "S" (fun _ => Except.error "boom") (some 3) =
      ⟨Except.error ⟨"S", 3, "boom"⟩, 3, [2, 4]⟩ := by
  have h := c5_retrier_exhaustion "S" (fun _ => Except.error "boom")
    (fun _ => "boom") 3 (by decide) (fun _ => rfl)
  rw [h]
  rfl

/-- C10: a falsy `max_retries` (`None` or `0`) is replaced by the configured
default `Config.MAX_RETRIES = 3`, so the retrier always makes at least one
attempt. -/
theorem c10_falsy_retries (name : String)
    (unit : Nat → Except String (List BlogPost)) :
    scrape_source name unit none = scrape_source name unit (some Config.MAX_RETRIES)
    ∧ scrape_source name unit (some 0) = scrape_source name unit (some Config.MAX_RETRIES)
    ∧ effectiveRetries none = 3
    ∧ effectiveRetries (some 0) = 3
    ∧ 1 ≤ (scrape_source name unit none).attempts
    ∧ 1 ≤ (scrape_source name unit (some 0)).attempts := by
  refine ⟨rfl, rfl, rfl, rfl, ?_, ?_⟩
  · exact scrapeLoop_attempts_pos name unit 3 0 (by decide)
  · exact scrapeLoop_attempts_pos name unit 3 0 (by decide)

/-! ### Concurrent orchestrator: claim C1 -/

/-- The union (concatenation, in completion order) of the record lists of the
sources that succeeded: the spec's wording of the successful result. -/
def successUnion (results : List (String × Except String (List BlogPost))) :
    List BlogPost :=
  (results.filterMap fun r =>
    match r.2 with
    | Except.ok ps => some ps
    | Except.error _ => none).flatten

theorem successPosts_foldl (results : List (String × Except String (List BlogPost))) :
    ∀ acc : List BlogPost,
      results.foldl
        (fun acc r =>
          match r.2 with
          | Except.ok posts => acc ++ posts
          | Except.error _ => acc)
        acc = acc ++ successUnion results := by
  induction results with
  | nil => intro acc; simp [successUnion]
  | cons r rest ih =>
    intro acc
    cases hr : r.2 with
    | ok ps =>
      simp only [List.foldl_cons, hr, ih (acc ++ ps), successUnion,
        List.filterMap_cons, List.append_assoc]
      simp [successUnion, List.filterMap_cons, hr]
    | error e =>
      simp only [List.foldl_cons, hr, ih acc]
      simp [successUnion, List.filterMap_cons, hr]

theorem successPosts_eq_successUnion
    (results : List (String × Except String (List BlogPost))) :
    successPosts results = successUnion results := by
  simpa using successPosts_foldl results []

/-- C1 (amended): `scrape_all_sources` returns the union of all records from
the sources that succeeded, raises the aggregate error (carrying every
`(source, error)` pair) precisely when that union is empty and at least one
failure occurred — even if some source succeeded with zero records — and on an
empty source list returns an empty sequence with no error. -/
theorem c1_scrape_all_amended
    (results : List (String × Except String (List BlogPost))) :
    (scrape_all_sources results =
      if successUnion results = [] ∧ failurePairs results ≠ []
      then Except.error (failurePairs results)
      else Except.ok (successUnion results))
    ∧ (results = [] → scrape_all_sources results = Except.ok []) := by
  constructor
  · show (if !(failurePairs results).isEmpty && (successPosts results).isEmpty
        then Except.error (failurePairs results)
        else Except.ok (successPosts results)) = _
    rw [successPosts_eq_successUnion]
    by_cases hu : successUnion results = []
    · by_cases hf : failurePairs results = []
      · simp [hu, hf]
      · simp [hu, hf, List.isEmpty_iff]
    · by_cases hf : failurePairs results = []
      · simp [hu, hf, List.isEmpty_iff]
      · simp [hu, hf, List.isEmpty_iff]
  · intro h
    subst h
    rfl

/-- Counterexample to C1 as stated: when source "A" succeeds with zero
records and source "B" fails, `scrape_all_sources` raises the aggregate error
although not every source failed ("A"'s outcome, listed in the input, is a
success). -/
theorem c1_counterexample :
    scrape_all_sources [("A", Except.ok ([] : List BlogPost)), ("B", Except.error "down")]
      = Except.error [("B", "down")]
    ∧ ("A", Except.ok ([] : List BlogPost))
        ∈ [("A", Except.ok ([] : List BlogPost)), ("B", Except.error "down")] :=
  ⟨rfl, List.mem_cons_self _ _⟩

/-- Witness for C1: the empty source list gives an empty result and no
error. -/
theorem c1_witness :
    scrape_all_sources ([] : List (String × Except String (List BlogPost)))
      = Except.ok [] :=
  (c1_scrape_all_amended []).2 rfl

/-! ### Extractor: claim C9 -/

/-- C9: extraction is total and per-element: an element with no title, no date
element or an unparseable date string is skipped; a missing content block gives
an empty body and a missing link an empty URL instead of an error; a dropped
element removes only itself; and the output follows document order (the
extraction of a concatenation is the concatenation of the extractions). -/
theorem c9_extraction_total (parseDate : String → Option DateTime)
    (joinUrl : String → String → String) (name baseUrl : String) :
    (∀ a : Article, a.titleElem = none →
        processArticle parseDate joinUrl name baseUrl a = none)
    ∧ (∀ a : Article, a.dateElem = none →
        processArticle parseDate joinUrl name baseUrl a = none)
    ∧ (∀ (a : Article) (attr : Option String) (text : String),
        a.dateElem = some (attr, text) → parseDate (dateStrOf attr text) = none →
        processArticle parseDate joinUrl name baseUrl a = none)
    ∧ (∀ (a : Article) (title : String) (attr : Option String) (text : String)
        (d : DateTime),
        a.titleElem = some title → a.dateElem = some (attr, text) →
        parseDate (dateStrOf attr text) = some d →
        (processArticle parseDate joinUrl name baseUrl a).isSome = true)
    ∧ (∀ (a : Article) (post : BlogPost),
        processArticle parseDate joinUrl name baseUrl a = some post →
        a.contentElem = none → post.content = "")
    ∧ (∀ (a : Article) (post : BlogPost),
        processArticle parseDate joinUrl name baseUrl a = some post →
        a.linkHref = none → post.url = "")
    ∧ (∀ as bs : List Article,
        parse_blog_html parseDate joinUrl name baseUrl (as ++ bs)
          = parse_blog_html parseDate joinUrl name baseUrl as
            ++ parse_blog_html parseDate joinUrl name baseUrl bs)
    ∧ (∀ (as : List Article) (a : Article) (bs : List Article),
        processArticle parseDate joinUrl name baseUrl a = none →
        parse_blog_html parseDate joinUrl name baseUrl (as ++ a :: bs)
          = parse_blog_html parseDate joinUrl name baseUrl (as ++ bs)) := by
  refine ⟨?_, ?_, ?_, ?_, ?_, ?_, ?_, ?_⟩
  · intro a h
    simp [processArticle, h]
  · intro a h
    cases ht : a.titleElem with
    | none => simp [processArticle, ht]
    | some title => simp [processArticle, ht, h]
  · intro a attr text hd hp
    cases ht : a.titleElem with
    | none => simp [processArticle, ht]
    | some title => simp [processArticle, ht, hd, hp]
  · intro a title attr text d ht hd hp
    simp [processArticle, ht, hd, hp]
  · intro a post hpost hc
    cases ht : a.titleElem with
    | none => simp [processArticle, ht] at hpost
    | some title =>
      cases hd : a.dateElem with
      | none => simp [processArticle, ht, hd] at hpost
      | some dp =>
        cases hp : parseDate (dateStrOf dp.1 dp.2) with
        | none => simp [processArticle, ht, hd, hp] at hpost
        | some d =>
          simp [processArticle, ht, hd, hp] at hpost
          rw [← hpost]
          simp [hc]
  · intro a post hpost hl
    cases ht : a.titleElem with
    | none => simp [processArticle, ht] at hpost
    | some title =>
      cases hd : a.dateElem with
      | none => simp [processArticle, ht, hd] at hpost
      | some dp =>
        cases hp : parseDate (dateStrOf dp.1 dp.2) with
        | none => simp [processArticle, ht, hd, hp] at hpost
        | some d =>
          simp [processArticle, ht, hd, hp] at hpost
          rw [← hpost]
          simp [hl]
  · intro as bs
    simp [parse_blog_html, List.filterMap_append]
  · intro as a bs h
    simp [parse_blog_html, List.filterMap_append, List.filterMap_cons, h]

/-- Witness for C9: a fully malformed element contributes nothing and the
surrounding document is unaffected. -/
theorem c9_witness :
    parse_blog_html (fun _ => none) (fun _ s => s) "A" "http://a"
        ([] ++ Article.mk none none none none :: [])
      = parse_blog_html (fun _ => none) (fun _ s => s) "A" "http://a" ([] ++ []) :=
  (c9_extraction_total (fun _ => none) (fun _ s => s) "A" "http://a").2.2.2.2.2.2.2
    [] (Article.mk none none none none) [] rfl

/-! ### Range filter: claim C8 -/

theorem dtFields_stripTz (d : DateTime) : dtFields (stripTz d) = dtFields d := by
  cases h : d.tz with
  | none => simp [stripTz, h]
  | some z => simp [stripTz, h, dtFields]

theorem dtFields_tzSet (z : Option Int) (d : DateTime) :
    dtFields (tzSet z d) = dtFields d := rfl

theorem dtLe_congr {a a' b b' : DateTime}
    (ha : dtFields a = dtFields a') (hb : dtFields b = dtFields b') :
    dtLe a b = dtLe a' b' := by
  simp [dtLe, ha, hb]

/-- C8: `filter_by_date` is an order-preserving predicate filter, inclusive on
both bounds: every survivor satisfies `start <= published_at <= end` under the
timezone-stripped comparison; a record whose stripped timestamp equals the
stripped `start` or the stripped `end` is retained (for a non-empty range);
and the result is insensitive to timezone tags on either bound. -/
theorem c8_filter_inclusive (posts : List BlogPost) (s e : DateTime) :
    (filter_by_date posts s e).Sublist posts
    ∧ (∀ p ∈ filter_by_date posts s e,
        dtLe (stripTz s) (stripTz p.date) = true
        ∧ dtLe (stripTz p.date) (stripTz e) = true)
    ∧ (∀ p ∈ posts,
        (dtFields p.date = dtFields s ∨ dtFields p.date = dtFields e) →
        dtLe (stripTz s) (stripTz e) = true →
        p ∈ filter_by_date posts s e)
    ∧ (∀ z z' : Option Int,
        filter_by_date posts (tzSet z s) (tzSet z' e) = filter_by_date posts s e) := by
  refine ⟨List.filter_sublist posts, ?_, ?_, ?_⟩
  · intro p hp
    have h := (List.mem_filter.mp hp).2
    exact ⟨(Bool.and_eq_true _ _ ▸ h).1, (Bool.and_eq_true _ _ ▸ h).2⟩
  · intro p hp hb hrange
    apply List.mem_filter.mpr
    refine ⟨hp, ?_⟩
    rcases hb with hb | hb
    · have h1 : dtLe (stripTz s) (stripTz p.date) = true := by
        simp [dtLe, dtFields_stripTz, hb, natListLt_self]
      have h2 : dtLe (stripTz p.date) (stripTz e) = true := by
        rw [@dtLe_congr (stripTz p.date) (stripTz s) (stripTz e) (stripTz e)
          (by rw [dtFields_stripTz, dtFields_stripTz, hb]) rfl]
        exact hrange
      simp [h1, h2]
    · have h1 : dtLe (stripTz s) (stripTz p.date) = true := by
        rw [@dtLe_congr (stripTz s) (stripTz s) (stripTz p.date) (stripTz e) rfl
          (by rw [dtFields_stripTz, dtFields_stripTz, hb])]
        exact hrange
      have h2 : dtLe (stripTz p.date) (stripTz e) = true := by
        simp [dtLe, dtFields_stripTz, hb, natListLt_self]
      simp [h1, h2]
  · intro z z'
    apply List.filter_congr
    intro p _
    rw [@dtLe_congr (stripTz (tzSet z s)) (stripTz s) (stripTz p.date)
        (stripTz p.date)
        (by rw [dtFields_stripTz, dtFields_stripTz, dtFields_tzSet]) rfl,
      @dtLe_congr (stripTz p.date) (stripTz p.date) (stripTz (tzSet z' e))
        (stripTz e) rfl
        (by rw [dtFields_stripTz, dtFields_stripTz, dtFields_tzSet])]

/-- Witness for C8: a post timestamped exactly at the start bound survives the
filter. -/
theorem c8_witness :
    BlogPost.mk "t" ⟨2026, 1, 1, 0, 0, 0, none⟩ "c" "A" "" none
      ∈ filter_by_date
          [BlogPost.mk "t" ⟨2026, 1, 1, 0, 0, 0, none⟩ "c" "A" "" none]
          ⟨2026, 1, 1, 0, 0, 0, none⟩ ⟨2026, 1, 31, 0, 0, 0, none⟩ :=
  (c8_filter_inclusive
      [BlogPost.mk "t" ⟨2026, 1, 1, 0, 0, 0, none⟩ "c" "A" "" none]
      ⟨2026, 1, 1, 0, 0, 0, none⟩ ⟨2026, 1, 31, 0, 0, 0, none⟩).2.2.1
    (BlogPost.mk "t" ⟨2026, 1, 1, 0, 0, 0, none⟩ "c" "A" "" none)
    (List.mem_cons_self _ _) (Or.inl rfl) (by decide)

/-! ### Aggregation determinism: claim C7 -/

/-- Counterexample to C7 as stated: `aggregate_posts` embeds the
`datetime.now()` reading in its `Generated:` header, so two runs on the same
record list at clock readings one minute apart produce different documents. -/
theorem c7_counterexample :
    aggregate_posts [BlogPost.mk "t" ⟨2026, 1, 5, 0, 0, 0, none⟩ "c" "A" "" none]
        ⟨2026, 2, 1, 10, 30, 0, none⟩
      ≠ aggregate_posts [BlogPost.mk "t" ⟨2026, 1, 5, 0, 0, 0, none⟩ "c" "A" "" none]
        ⟨2026, 2, 1, 10, 31, 0, none⟩ := by
  decide

/-- C7 (amended): aggregation is deterministic given the clock reading — the
output depends on the current time only through its minute-resolution
rendering, so two runs on equal record lists whose `datetime.now()` readings
format identically produce equal documents. -/
theorem c7_aggregate_deterministic (posts : List BlogPost) (n1 n2 : DateTime)
    (h : fmtMinute n1 = fmtMinute n2) :
    aggregate_posts posts n1 = aggregate_posts posts n2 := by
  cases posts with
  | nil => rfl
  | cons p rest => simp [aggregate_posts, aggregateLines, h]

/-- Witness for C7 (amended): clock readings differing only in seconds format
identically, so the documents agree. -/
theorem c7_witness :
    aggregate_posts [BlogPost.mk "t" ⟨2026, 1, 5, 0, 0, 0, none⟩ "c" "A" "" none]
        ⟨2026, 2, 1, 10, 30, 5, none⟩
      = aggregate_posts [BlogPost.mk "t" ⟨2026, 1, 5, 0, 0, 0, none⟩ "c" "A" "" none]
        ⟨2026, 2, 1, 10, 30, 59, none⟩ :=
  c7_aggregate_deterministic _ _ _ rfl

/-! ### Deduplicator: claims C2, C3, C4 -/

/-- The relation `deduplicate_content` establishes between an earlier-kept
record `q` and a later-kept record `p`: `p` was not discarded by the seen-URL
check against `q` and is not similar to `q`. -/
def KeepRel (t : ℚ) (q p : BlogPost) : Prop :=
  (p.url = "" ∨ q.url ≠ p.url) ∧ is_similar_content p q t = false

/-- Loop invariant of `deduplicate_content`: the seen-URL collection holds
exactly the non-empty URLs of the kept records. -/
def SeenInv (kept : List BlogPost) (seen : List String) : Prop :=
  ∀ u : String, seen.contains u = true ↔ (u ≠ "" ∧ ∃ q ∈ kept, q.url = u)

theorem SeenInv_nil : SeenInv [] [] := by
  intro u
  simp

theorem SeenInv_update (p : BlogPost) {kept : List BlogPost} {seen : List String}
    (h : SeenInv kept seen) :
    SeenInv (kept ++ [p]) (if p.url = "" then seen else p.url :: seen) := by
  intro u
  by_cases hp : p.url = ""
  · rw [if_pos hp, h u]
    simp only [List.mem_append, List.mem_singleton]
    constructor
    · rintro ⟨hu, q, hq, hqu⟩
      exact ⟨hu, q, Or.inl hq, hqu⟩
    · rintro ⟨hu, q, hq | hq, hqu⟩
      · exact ⟨hu, q, hq, hqu⟩
      · subst hq
        rw [hp] at hqu
        exact absurd hqu.symm hu
  · rw [if_neg hp]
    simp only [List.contains_cons, Bool.or_eq_true, beq_iff_eq]
    constructor
    · rintro (hu | hc)
      · subst hu
        exact ⟨hp, p, by simp, rfl⟩
      · obtain ⟨hu, q, hq, hqu⟩ := (h u).mp hc
        exact ⟨hu, q, by simp [hq], hqu⟩
    · rintro ⟨hu, q, hq, hqu⟩
      rcases List.mem_append.mp hq with hq | hq
      · exact Or.inr ((h u).mpr ⟨hu, q, hq, hqu⟩)
      · rw [List.mem_singleton] at hq
        subst hq
        exact Or.inl hqu.symm

theorem dedupLoop_pairwise (t : ℚ) :
    ∀ (xs kept : List BlogPost) (seen : List String),
      SeenInv kept seen → List.Pairwise (KeepRel t) kept →
      List.Pairwise (KeepRel t) (dedupLoop t xs kept seen) := by
  intro xs
  induction xs with
  | nil =>
    intro kept seen _ hp
    simpa [dedupLoop] using hp
  | cons p rest ih =>
    intro kept seen hinv hp
    rw [dedupLoop]
    by_cases h1 : ((p.url != "") && seen.contains p.url) = true
    · rw [if_pos h1]
      exact ih kept seen hinv hp
    · rw [if_neg h1]
      by_cases h2 : (kept.any fun q => is_similar_content p q t) = true
      · rw [if_pos h2]
        exact ih kept seen hinv hp
      · rw [if_neg h2]
        have h2' : ∀ q ∈ kept, is_similar_content p q t = false := by
          intro q hq
          have := List.any_eq_false.mp (Bool.eq_false_iff.mpr h2) q hq
          simpa using this
        apply ih _ _ (SeenInv_update p hinv)
        rw [List.pairwise_append]
        refine ⟨hp, List.pairwise_singleton _ _, ?_⟩
        intro q hq p' hp'
        rw [List.mem_singleton] at hp'
        subst hp'
        constructor
        · by_cases hu : p'.url = ""
          · exact Or.inl hu
          · right
            intro hq_url
            apply h1
            rw [Bool.and_eq_true]
            refine ⟨by simpa using hu, (hinv p'.url).mpr ⟨hu, q, hq, hq_url⟩⟩
        · exact h2' q hq

theorem dedupLoop_replay (t : ℚ) :
    ∀ (ys kept : List BlogPost) (seen : List String),
      List.Pairwise (KeepRel t) ys → SeenInv kept seen →
      (∀ q ∈ kept, ∀ p ∈ ys, KeepRel t q p) →
      dedupLoop t ys kept seen = kept ++ ys := by
  intro ys
  induction ys with
  | nil =>
    intro kept seen _ _ _
    simp [dedupLoop]
  | cons p rest ih =>
    intro kept seen hpw hinv hcross
    have hhead : ∀ q ∈ kept, KeepRel t q p := fun q hq =>
      hcross q hq p (List.mem_cons_self _ _)
    have h1 : ¬ ((p.url != "") && seen.contains p.url) = true := by
      rw [Bool.and_eq_true]
      rintro ⟨hne, hc⟩
      obtain ⟨hu, q, hq, hqu⟩ := (hinv p.url).mp hc
      rcases (hhead q hq).1 with hempty | hdiff
      · rw [hempty] at hne
        simp at hne
      · exact hdiff hqu
    have h2 : ¬ (kept.any fun q => is_similar_content p q t) = true := by
      rw [List.any_eq_true]
      rintro ⟨q, hq, hsim⟩
      rw [(hhead q hq).2] at hsim
      exact Bool.false_ne_true hsim
    rw [dedupLoop, if_neg h1, if_neg h2]
    rw [ih (kept ++ [p]) _ (List.pairwise_cons.mp hpw).2 (SeenInv_update p hinv) ?_]
    · simp
    · intro q hq p' hp'
      rcases List.mem_append.mp hq with hq | hq
      · exact hcross q hq p' (List.mem_cons_of_mem _ hp')
      · rw [List.mem_singleton] at hq
        subst hq
        exact (List.pairwise_cons.mp hpw).1 p' hp'

/-- C2: `deduplicate_content` is idempotent for every threshold in (0,1). -/
theorem c2_deduplicate_idempotent (xs : List BlogPost) (t : ℚ)
    (h0 : 0 < t) (h1 : t < 1) :
    deduplicate_content (deduplicate_content xs t) t = deduplicate_content xs t := by
  cases xs with
  | nil => rfl
  | cons x rest =>
    have hpw := dedupLoop_pairwise t (x :: rest) [] [] SeenInv_nil List.Pairwise.nil
    show deduplicate_content (dedupLoop t (x :: rest) [] []) t = dedupLoop t (x :: rest) [] []
    cases hys : dedupLoop t (x :: rest) [] [] with
    | nil => rfl
    | cons y ys =>
      rw [hys] at hpw
      show dedupLoop t (y :: ys) [] [] = y :: ys
      have h := dedupLoop_replay t (y :: ys) [] [] hpw SeenInv_nil
        (by intro q hq; simp at hq)
      simpa using h

/-- Witness for C2 at a concrete input and threshold 1/2. -/
theorem c2_witness :
    deduplicate_content
        (deduplicate_content
          [BlogPost.mk "venture outlook" ⟨2026, 1, 5, 0, 0, 0, none⟩ "alpha" "A" "http://a/1" none,
           BlogPost.mk "totally different" ⟨2026, 1, 6, 0, 0, 0, none⟩ "beta" "B" "http://b/1" none]
          (1 / 2))
        (1 / 2)
      = deduplicate_content
          [BlogPost.mk "venture outlook" ⟨2026, 1, 5, 0, 0, 0, none⟩ "alpha" "A" "http://a/1" none,
           BlogPost.mk "totally different" ⟨2026, 1, 6, 0, 0, 0, none⟩ "beta" "B" "http://b/1" none]
          (1 / 2) :=
  c2_deduplicate_idempotent _ (1 / 2) (by norm_num) (by norm_num)

theorem countP_le_one_of_pairwise {α : Type} (f : α → Bool) :
    ∀ l : List α, List.Pairwise (fun a b => f a = true → f b = false) l →
      l.countP f ≤ 1 := by
  intro l
  induction l with
  | nil => simp
  | cons a l ih =>
    intro hp
    obtain ⟨ha, hl⟩ := List.pairwise_cons.mp hp
    by_cases hfa : f a = true
    · have hz : l.countP f = 0 :=
        List.countP_eq_zero.mpr fun b hb => by simp [ha b hb hfa]
      simp [List.countP_cons, hfa, hz]
    · have hfa' : f a = false := Bool.eq_false_iff.mpr hfa
      simp only [List.countP_cons, hfa', if_neg]
      simpa using ih hl

/-- C3: for every non-empty URL, the output of `deduplicate_content` contains
at most one record carrying it — two records with identical non-empty URLs
always collapse to (at most) one, whatever their titles and bodies. -/
theorem c3_identical_urls_collapse (xs : List BlogPost) (t : ℚ) (u : String)
    (hu : u ≠ "") :
    (deduplicate_content xs t).countP (fun p => p.url == u) ≤ 1 := by
  cases xs with
  | nil => simp [deduplicate_content]
  | cons x rest =>
    have hpw := dedupLoop_pairwise t (x :: rest) [] [] SeenInv_nil List.Pairwise.nil
    show (dedupLoop t (x :: rest) [] []).countP (fun p => p.url == u) ≤ 1
    apply countP_le_one_of_pairwise
    apply hpw.imp
    intro a b hab hfa
    have hau : a.url = u := by simpa using hfa
    rw [beq_eq_false_iff_ne]
    rcases hab.1 with hb | hne
    · rw [hb]
      exact Ne.symm hu
    · intro hbu
      exact hne (by rw [hau, hbu])

/-- Witness for C3: two posts sharing the URL `http://x` with dissimilar
titles and bodies leave at most one record with that URL. -/
theorem c3_witness :
    (deduplicate_content
        [BlogPost.mk "first post" ⟨2026, 1, 5, 0, 0, 0, none⟩ "aaa" "A" "http://x" none,
         BlogPost.mk "zzz" ⟨2026, 1, 6, 0, 0, 0, none⟩ "qqq" "B" "http://x" none]
        (17 / 20)).countP (fun p => p.url == "http://x") ≤ 1 :=
  c3_identical_urls_collapse _ (17 / 20) "http://x" (by decide)

theorem is_similar_content_iff (p q : BlogPost) (t : ℚ) :
    is_similar_content p q t = true ↔
      (t < ratioOf p.title q.title
        ∨ (p.content ≠ "" ∧ q.content ≠ ""
            ∧ t < ratioOf (p.content.take 500) (q.content.take 500))) := by
  simp [is_similar_content, Bool.or_eq_true, Bool.and_eq_true,
    decide_eq_true_iff, and_assoc]

/-- C4: when the incoming record survives the seen-URL check, it is discarded
exactly when some already-kept record beats the threshold strictly on title
similarity, or — with both bodies non-empty — strictly on the similarity of
the first 500 characters of the bodies; the kept list is then left unchanged
(the earlier-kept record wins).  Otherwise the record is appended to the kept
list. -/
theorem c4_near_duplicate_rule (t : ℚ) (kept : List BlogPost)
    (seen : List String) (rest : List BlogPost) (p : BlogPost)
    (h : p.url = "" ∨ seen.contains p.url = false) :
    dedupLoop t (p :: rest) kept seen =
      if ∃ q ∈ kept, t < ratioOf p.title q.title
          ∨ (p.content ≠ "" ∧ q.content ≠ ""
              ∧ t < ratioOf (p.content.take 500) (q.content.take 500))
      then dedupLoop t rest kept seen
      else dedupLoop t rest (kept ++ [p])
        (if p.url = "" then seen else p.url :: seen) := by
  have h1 : ¬ ((p.url != "") && seen.contains p.url) = true := by
    rcases h with h | h
    · simp [h]
    · rw [h]
      simp
  rw [dedupLoop, if_neg h1]
  by_cases hex : ∃ q ∈ kept, t < ratioOf p.title q.title
      ∨ (p.content ≠ "" ∧ q.content ≠ ""
          ∧ t < ratioOf (p.content.take 500) (q.content.take 500))
  · rw [if_pos hex]
    obtain ⟨q, hq, hcond⟩ := hex
    rw [if_pos (List.any_eq_true.mpr ⟨q, hq, (is_similar_content_iff p q t).mpr hcond⟩)]
  · rw [if_neg hex]
    have hany : ¬ (kept.any fun q => is_similar_content p q t) = true := by
      rw [List.any_eq_true]
      rintro ⟨q, hq, hsim⟩
      exact hex ⟨q, hq, (is_similar_content_iff p q t).mp hsim⟩
    rw [if_neg hany]

/-- Witness for C4 at a concrete state: an incoming record with an empty URL
against one kept record. -/
theorem c4_witness :
    dedupLoop (1 / 2)
        [BlogPost.mk "incoming" ⟨2026, 1, 6, 0, 0, 0, none⟩ "body two" "B" "" none]
        [BlogPost.mk "kept" ⟨2026, 1, 5, 0, 0, 0, none⟩ "body one" "A" "http://a" none]
        ["http://a"] =
      if ∃ q ∈ [BlogPost.mk "kept" ⟨2026, 1, 5, 0, 0, 0, none⟩ "body one" "A" "http://a" none],
          (1 : ℚ) / 2 < ratioOf "incoming" q.title
          ∨ (("body two" : String) ≠ "" ∧ q.content ≠ ""
              ∧ (1 : ℚ) / 2 < ratioOf (("body two" : String).take 500) (q.content.take 500))
      then dedupLoop (1 / 2) [] [BlogPost.mk "kept" ⟨2026, 1, 5, 0, 0, 0, none⟩ "body one" "A" "http://a" none] ["http://a"]
      else dedupLoop (1 / 2) []
        ([BlogPost.mk "kept" ⟨2026, 1, 5, 0, 0, 0, none⟩ "body one" "A" "http://a" none]
          ++ [BlogPost.mk "incoming" ⟨2026, 1, 6, 0, 0, 0, none⟩ "body two" "B" "" none])
        (if ("" : String) = "" then ["http://a"] else "" :: ["http://a"]) :=
  c4_near_duplicate_rule (1 / 2) _ _ _ _ (Or.inl rfl)

/-! ### Aggregator sorting and grouping: claim C6 -/

